import Mathlib

/-!
Verification of the lastdb index-building driver (src/last-744/scr/lastdb.cc)
against its natural-language specification.

The driver source is shallowly embedded below.  Machine integers are
modelled as `Nat` with explicit reductions modulo `2 ^ 64` (`size_t`) or
modulo the chosen index-integer width where C overflow/truncation matters.
`MultiSequence::indexT` has a build-chosen byte width, carried here as a
parameter `W` (bytes), so `indexT` values live below `2 ^ (8 * W)`.

Collaborator classes (MultiSequence, Alphabet, threadUtil) are not part of
the sources; where their behaviour decides a claim they are modelled from
the specification and marked as such in their doc comments.
-/

/-- Cardinality of the C `size_t` type (64-bit build). -/
def size_tCard : Nat := 2 ^ 64

/-- Cardinality of the C `unsigned int` type. -/
def uintCard : Nat := 2 ^ 32

/-- Cardinality of `MultiSequence::indexT` when it is `w` bytes wide. -/
def indexTCard (w : Nat) : Nat := 2 ^ (8 * w)

/-- The largest `indexT` value, i.e. `indexT(-1)` in the source. -/
def indexTMax (w : Nat) : Nat := indexTCard w - 1

/-- The input sequence formats recognised by the driver
(`sequenceFormat` in the source). -/
inductive SequenceFormat where
  | fasta
  | fastqSanger
  | fastqSolexa
  | fastqIllumina
deriving Repr, DecidableEq

/-- The integer value the C enum prints for each format. -/
def SequenceFormat.code : SequenceFormat → Nat
  | .fasta => 0
  | .fastqSanger => 1
  | .fastqSolexa => 2
  | .fastqIllumina => 3

/-- `isFastq` from qualityScoreUtil: the formats that carry one quality
byte per letter. -/
def isFastq : SequenceFormat → Bool
  | .fasta => false
  | _ => true

/-- The fields of `LastdbArguments` consumed by the embedded code. -/
structure LastdbArguments where
  lastdbName : String
  userAlphabet : String
  isProtein : Bool
  isKeepLowercase : Bool
  isCaseSensitive : Bool
  isCountsOnly : Bool
  tantanSetting : Nat
  minSeedLimit : Nat
  minimizerWindow : Nat
  indexStep : Nat
  volumeSize : Nat
  inputFormat : SequenceFormat
deriving Repr, DecidableEq

/-- `maxLettersPerVolume` (lastdb.cc lines 234-244): the max number of
sequence letters such that the total volume size is likely to be less
than `volumeSize` bytes.  All arithmetic is in `size_t`; the final
conversion to `indexT` truncates, and a truncated (overflowed) result is
replaced by `indexT(-1)`. -/
def maxLettersPerVolume (W : Nat) (args : LastdbArguments) (numOfIndexes : Nat) : Nat :=
  let bytesPerLetter : Nat := if isFastq args.inputFormat then 2 else 1
  let maxIndexBytesPerPosition : Nat := (W + 1) * numOfIndexes % size_tCard
  let x : Nat := (bytesPerLetter * args.indexStep + maxIndexBytesPerPosition) % size_tCard
  let y : Nat := args.volumeSize / x * args.indexStep % size_tCard
  let z : Nat := y % indexTCard W
  if z < y then indexTMax W else z

/-- C2: `maxLettersPerVolume` divides the byte budget `volumeSize` by the
byte cost of one step-block of letters — `bytesPerLetter * indexStep`
bytes of stored text (two bytes per letter for quality-carrying formats,
one otherwise) plus `(indexWidth + 1) * numOfIndexes` index bytes for the
one indexed position per block — yielding `indexStep` letters per block,
and clamps the letter count to the maximum representable index value when
it overflows the index width. -/
theorem maxLettersPerVolume_eq_budget_clamped (W : Nat) (args : LastdbArguments)
    (numOfIndexes : Nat)
    (hx : (if isFastq args.inputFormat then 2 else 1) * args.indexStep
            + (W + 1) * numOfIndexes < size_tCard)
    (hy : args.volumeSize /
            ((if isFastq args.inputFormat then 2 else 1) * args.indexStep
              + (W + 1) * numOfIndexes) * args.indexStep < size_tCard) :
    maxLettersPerVolume W args numOfIndexes =
      min (args.volumeSize /
            ((if isFastq args.inputFormat then 2 else 1) * args.indexStep
              + (W + 1) * numOfIndexes) * args.indexStep)
          (indexTMax W) := by
  simp only [maxLettersPerVolume]
  have hmip : (W + 1) * numOfIndexes < size_tCard := by omega
  rw [Nat.mod_eq_of_lt hmip, Nat.mod_eq_of_lt hx, Nat.mod_eq_of_lt hy]
  set y := args.volumeSize /
      ((if isFastq args.inputFormat then 2 else 1) * args.indexStep
        + (W + 1) * numOfIndexes) * args.indexStep with hydef
  have hcard : 0 < indexTCard W := Nat.pos_pow_of_pos _ (by norm_num)
  by_cases hlt : y < indexTCard W
  · rw [Nat.mod_eq_of_lt hlt]
    simp only [lt_irrefl, if_false]
    have : y ≤ indexTMax W := by unfold indexTMax; omega
    omega
  · have hmod : y % indexTCard W < indexTCard W := Nat.mod_lt _ hcard
    have : y % indexTCard W < y := by omega
    simp only [this, if_true]
    have : indexTMax W ≤ y := by unfold indexTMax; omega
    omega

/-- Witness for C2 at concrete arguments: fasta input, step 1, one seed,
4-byte indexT, a 100-byte budget. -/
def c2Args : LastdbArguments :=
  { lastdbName := "db", userAlphabet := "", isProtein := false,
    isKeepLowercase := false, isCaseSensitive := false, isCountsOnly := false,
    tantanSetting := 0, minSeedLimit := 0, minimizerWindow := 1,
    indexStep := 1, volumeSize := 100, inputFormat := .fasta }

theorem maxLettersPerVolume_eq_budget_clamped_witness :
    ((if isFastq c2Args.inputFormat then 2 else 1) * c2Args.indexStep
          + (4 + 1) * 1 < size_tCard
      ∧ c2Args.volumeSize /
          ((if isFastq c2Args.inputFormat then 2 else 1) * c2Args.indexStep
            + (4 + 1) * 1) * c2Args.indexStep < size_tCard)
    ∧ maxLettersPerVolume 4 c2Args 1 =
        min (c2Args.volumeSize /
              ((if isFastq c2Args.inputFormat then 2 else 1) * c2Args.indexStep
                + (4 + 1) * 1) * c2Args.indexStep)
            (indexTMax 4) :=
  ⟨⟨by decide, by decide⟩,
    maxLettersPerVolume_eq_budget_clamped 4 c2Args 1 (by decide) (by decide)⟩

/-- The MultiSequence state visible to the driver: how many records have
been finished into the buffer and how many letters they occupy.  Letters
of a record that was only partially read (budget hit) are not counted
here; re-appending the record supplies its full length again, matching
`reinitForAppending` keeping the unfinished tail. -/
structure MultiState where
  finishedSeqs : Nat
  finishedLen : Nat
deriving Repr, DecidableEq

/-- Modelled from the spec: `MultiSequence::appendFromFasta` /
`appendFromFastq` (MultiSequence is not under src/).  Both honour
`maxLen`: if appending the record of `recLen` letters would push the
buffer size past `maxLen`, the record is retained unfinished and
`isFinished()` reports false; otherwise the record is finished.  Returns
(`isFinished`, new state). -/
def multiAppend (ms : MultiState) (recLen maxLen : Nat) : Bool × MultiState :=
  if ms.finishedLen + recLen ≤ maxLen then
    (true, ⟨ms.finishedSeqs + 1, ms.finishedLen + recLen⟩)
  else
    (false, ms)

/-- The length cap handed to MultiSequence by the driver's
`appendFromFasta` wrapper (lastdb.cc lines 251-252): the per-volume
letter budget, except that the first record of a volume gets
`indexT(-1)`. -/
def appendCap (W : Nat) (args : LastdbArguments) (numOfIndexes : Nat)
    (ms : MultiState) : Nat :=
  if ms.finishedSeqs = 0 then indexTMax W else maxLettersPerVolume W args numOfIndexes

/-- The driver's `appendFromFasta` wrapper (lastdb.cc lines 247-275):
append one record under the cap, and raise "encountered a sequence
that's too long" exactly when the record came back unfinished while the
MultiSequence holds zero finished sequences. -/
def appendFromFasta (W : Nat) (args : LastdbArguments) (numOfIndexes : Nat)
    (ms : MultiState) (recLen : Nat) : Except String (Bool × MultiState) :=
  let r := multiAppend ms recLen (appendCap W args numOfIndexes ms)
  if r.1 = false ∧ r.2.finishedSeqs = 0 then
    .error "encountered a sequence that's too long"
  else
    .ok r

/-- C9: for an append made while the MultiSequence holds zero finished
sequences (the first record of a volume), the cap handed to MultiSequence
is the maximum index value, not `maxLettersPerVolume`, so the too-long
error fires exactly when the single record exceeds the index-width
maximum; and an append made with at least one finished sequence never
raises the too-long error at all. -/
theorem appendCap_firstRecord_isIndexMax (W : Nat) (args : LastdbArguments)
    (numOfIndexes : Nat) (ms : MultiState)
    (h0 : ms.finishedSeqs = 0) (h0' : ms.finishedLen = 0) :
    appendCap W args numOfIndexes ms = indexTMax W
    ∧ (∀ recLen, (∃ e, appendFromFasta W args numOfIndexes ms recLen = .error e)
        ↔ indexTMax W < recLen)
    ∧ (∀ ms' recLen, 0 < ms'.finishedSeqs →
        ∀ e, appendFromFasta W args numOfIndexes ms' recLen ≠ .error e) := by
  refine ⟨by simp [appendCap, h0], fun recLen => ?_, fun ms' recLen hpos e => ?_⟩
  · unfold appendFromFasta multiAppend appendCap
    simp only [h0, h0', if_true, Nat.zero_add]
    by_cases hle : recLen ≤ indexTMax W
    · simp [hle, Nat.not_lt.mpr hle]
    · simp only [hle, if_false]
      simp only [h0, if_true]
      constructor
      · intro _; omega
      · intro _; exact ⟨"encountered a sequence that's too long", rfl⟩
  · unfold appendFromFasta multiAppend
    by_cases hle : ms'.finishedLen + recLen ≤ appendCap W args numOfIndexes ms'
    · simp [hle]
    · simp only [hle, if_false]
      have : ¬ ms'.finishedSeqs = 0 := by omega
      simp [this]

/-- Witness for C9: an empty MultiSequence with a 4-byte index width. -/
theorem appendCap_firstRecord_isIndexMax_witness :
    ((⟨0, 0⟩ : MultiState).finishedSeqs = 0 ∧ (⟨0, 0⟩ : MultiState).finishedLen = 0)
    ∧ (appendCap 4 c2Args 1 ⟨0, 0⟩ = indexTMax 4
        ∧ (∀ recLen, (∃ e, appendFromFasta 4 c2Args 1 ⟨0, 0⟩ recLen = .error e)
            ↔ indexTMax 4 < recLen)
        ∧ (∀ ms' recLen, 0 < ms'.finishedSeqs →
            ∀ e, appendFromFasta 4 c2Args 1 ms' recLen ≠ .error e)) :=
  ⟨⟨rfl, rfl⟩, appendCap_firstRecord_isIndexMax 4 c2Args 1 ⟨0, 0⟩ rfl rfl⟩

/-- Arguments whose per-volume letter budget is tiny: with a 10-byte
volume budget, fasta input, step 1, one seed and 4-byte indexT, the
budget is 10 / (1 + 5) = 1 letter. -/
def c3Args : LastdbArguments :=
  { lastdbName := "db", userAlphabet := "", isProtein := false,
    isKeepLowercase := false, isCaseSensitive := false, isCountsOnly := false,
    tantanSetting := 0, minSeedLimit := 0, minimizerWindow := 1,
    indexStep := 1, volumeSize := 10, inputFormat := .fasta }

/-- C3 counterexample: a 2-letter record exceeds the 1-letter per-volume
budget all by itself, yet appending it to an empty MultiSequence
succeeds (the first record of a volume is capped by `indexT(-1)`, not by
the budget), so it is not a fatal input error as the claim states. -/
theorem singleRecordOverBudget_noError :
    maxLettersPerVolume 4 c3Args 1 = 1
    ∧ appendFromFasta 4 c3Args 1 ⟨0, 0⟩ 2 = .ok (true, ⟨1, 2⟩) := by
  constructor
  · rfl
  · rfl

/-- C3 (amended): a single record that exceeds the maximum representable
index value all by itself, starting from an empty buffer, is a fatal
input error; in general `appendFromFasta` raises an error exactly when
the appended record is unfinished and the MultiSequence holds zero
finished sequences. -/
theorem appendFromFasta_error_iff (W : Nat) (args : LastdbArguments)
    (numOfIndexes : Nat) (ms : MultiState) (recLen : Nat)
    (hempty : ms.finishedSeqs = 0 ∧ ms.finishedLen = 0) :
    ((∃ e, appendFromFasta W args numOfIndexes ms recLen = .error e)
        ↔ indexTMax W < recLen)
    ∧ (∀ ms₁ L,
        (∃ e, appendFromFasta W args numOfIndexes ms₁ L = .error e)
          ↔ ((multiAppend ms₁ L (appendCap W args numOfIndexes ms₁)).1 = false
              ∧ (multiAppend ms₁ L (appendCap W args numOfIndexes ms₁)).2.finishedSeqs = 0)) := by
  constructor
  · exact (appendCap_firstRecord_isIndexMax W args numOfIndexes ms hempty.1 hempty.2).2.1 recLen
  · intro ms₁ L
    simp only [appendFromFasta]
    by_cases h : (multiAppend ms₁ L (appendCap W args numOfIndexes ms₁)).1 = false
        ∧ (multiAppend ms₁ L (appendCap W args numOfIndexes ms₁)).2.finishedSeqs = 0
    · rw [if_pos h]
      exact iff_of_true ⟨_, rfl⟩ h
    · rw [if_neg h]
      exact iff_of_false (by rintro ⟨e, he⟩; exact Except.noConfusion he) h

/-- Witness for the amended C3 on an empty MultiSequence. -/
theorem appendFromFasta_error_iff_witness :
    ((⟨0, 0⟩ : MultiState).finishedSeqs = 0 ∧ (⟨0, 0⟩ : MultiState).finishedLen = 0)
    ∧ (((∃ e, appendFromFasta 4 c3Args 1 ⟨0, 0⟩ 7 = .error e) ↔ indexTMax 4 < 7)
        ∧ (∀ ms₁ L,
            (∃ e, appendFromFasta 4 c3Args 1 ms₁ L = .error e)
              ↔ ((multiAppend ms₁ L (appendCap 4 c3Args 1 ms₁)).1 = false
                  ∧ (multiAppend ms₁ L (appendCap 4 c3Args 1 ms₁)).2.finishedSeqs = 0))) :=
  ⟨⟨rfl, rfl⟩, appendFromFasta_error_iff 4 c3Args 1 ⟨0, 0⟩ 7 ⟨rfl, rfl⟩⟩

/-- The driver-loop state of `lastdb` (lastdb.cc lines 302-344):
the running volume number, the sequence count, the MultiSequence, and
the base names of the volumes emitted so far (each a `makeVolume` call),
in emission order. -/
structure LoopState where
  volumeNumber : Nat
  sequenceCount : Nat
  ms : MultiState
  volumes : List String
deriving Repr, DecidableEq

def initialLoopState : LoopState := ⟨0, 0, ⟨0, 0⟩, []⟩

/-- The finished-record branch (lastdb.cc lines 322-333): count the
record, and in counts-only mode reinitialize the MultiSequence. -/
def handleFinished (args : LastdbArguments) (st : LoopState) (ms' : MultiState) :
    LoopState :=
  { st with
    sequenceCount := st.sequenceCount + 1,
    ms := if args.isCountsOnly then ⟨0, 0⟩ else ms' }

/-- The unfinished-record branch (lastdb.cc lines 334-342): emit a volume
named `lastdbName ++ volumeNumber` from the finished records, bump the
volume number, and reinitialize the MultiSequence (which keeps the
unfinished record's bytes; the driver then resumes the same record). -/
def emitVolume (args : LastdbArguments) (st : LoopState) : LoopState :=
  { st with
    volumes := st.volumes ++ [args.lastdbName ++ toString st.volumeNumber],
    volumeNumber := st.volumeNumber + 1,
    ms := ⟨0, 0⟩ }

/-- One record's trip through the `while (appendFromFasta ...)` loop.  A
record is appended at most twice: if the first append hits the volume
budget (unfinished), the driver emits a volume, reinitializes, and the
next loop iteration resumes the same record into the fresh buffer, whose
cap is `indexT(-1)`; that second append either finishes the record or
raises the too-long error, so no third attempt can occur (the final
`.ok` fallback below is unreachable).  Returns the new state, plus the
error message if the run aborted. -/
def stepRecord (W : Nat) (args : LastdbArguments) (numOfIndexes : Nat)
    (st : LoopState) (recLen : Nat) : LoopState × Option String :=
  match appendFromFasta W args numOfIndexes st.ms recLen with
  | .error e => (st, some e)
  | .ok (true, ms') => (handleFinished args st ms', none)
  | .ok (false, _) =>
    let st' := emitVolume args st
    match appendFromFasta W args numOfIndexes st'.ms recLen with
    | .error e => (st', some e)
    | .ok (true, ms'') => (handleFinished args st' ms'', none)
    | .ok (false, _) => (st', none)

/-- The ingest loop over the stream of records (lastdb.cc lines 311-344),
halting at the first error. -/
def runLoop (W : Nat) (args : LastdbArguments) (numOfIndexes : Nat)
    (st : LoopState) : List Nat → LoopState × Option String
  | [] => (st, none)
  | recLen :: rest =>
    match stepRecord W args numOfIndexes st recLen with
    | (st', none) => runLoop W args numOfIndexes st' rest
    | (st', some e) => (st', some e)

/-- What the driver leaves on disk, volume-wise: the volume base names in
emission order, and `some v` when a separate top-level manifest was
written recording `v` volumes. -/
structure DriverOut where
  volumes : List String
  topPrj : Option Nat
deriving Repr, DecidableEq

/-- The end-of-input stage (lastdb.cc lines 346-360): if finished records
remain, emit a final volume — named by the bare base name when no volume
was emitted yet (and then return without a top-level manifest), else
named with the next numeric suffix; finally write the top-level manifest
recording the volume count. -/
def finalize (args : LastdbArguments) (st : LoopState) : DriverOut :=
  if 0 < st.ms.finishedSeqs then
    if st.volumeNumber = 0 then
      { volumes := st.volumes ++ [args.lastdbName], topPrj := none }
    else
      { volumes := st.volumes ++ [args.lastdbName ++ toString st.volumeNumber],
        topPrj := some (st.volumeNumber + 1) }
  else
    { volumes := st.volumes, topPrj := some st.volumeNumber }

/-- The whole `lastdb` run over a stream of records: the loop, then, when
no error aborted it, the end-of-input stage.  On an aborted run the
volumes emitted before the abort are reported and no top-level manifest
is written. -/
def lastdbRun (W : Nat) (args : LastdbArguments) (numOfIndexes : Nat)
    (recs : List Nat) : DriverOut × Option String :=
  match runLoop W args numOfIndexes initialLoopState recs with
  | (st, none) => (finalize args st, none)
  | (st, some e) => ({ volumes := st.volumes, topPrj := none }, some e)

/-- The names a run gives its volumes: `lastdbName` followed by the
volume number. -/
def volumeNames (args : LastdbArguments) (n : Nat) : List String :=
  (List.range n).map (fun k => args.lastdbName ++ toString k)

/-- Invariant of the ingest loop: the volumes emitted so far are
numbered 0, 1, ... in emission order. -/
theorem stepRecord_names (W : Nat) (args : LastdbArguments) (numOfIndexes : Nat)
    (st : LoopState) (recLen : Nat)
    (h : st.volumes = volumeNames args st.volumeNumber) :
    (stepRecord W args numOfIndexes st recLen).1.volumes
      = volumeNames args (stepRecord W args numOfIndexes st recLen).1.volumeNumber := by
  have hemit : (emitVolume args st).volumes
      = volumeNames args (emitVolume args st).volumeNumber := by
    simp only [emitVolume, volumeNames, List.range_succ, List.map_append, List.map_cons,
      List.map_nil]
    rw [h]
    rfl
  unfold stepRecord
  cases hap : appendFromFasta W args numOfIndexes st.ms recLen with
  | error e => simpa using h
  | ok r =>
    rcases r with ⟨fin, ms'⟩
    cases fin
    · simp only []
      cases hap2 : appendFromFasta W args numOfIndexes (emitVolume args st).ms recLen with
      | error e => simpa using hemit
      | ok r2 =>
        rcases r2 with ⟨fin2, ms''⟩
        cases fin2 <;> simpa [handleFinished] using hemit
    · simpa [handleFinished] using h

theorem runLoop_names (W : Nat) (args : LastdbArguments) (numOfIndexes : Nat)
    (recs : List Nat) (st : LoopState)
    (h : st.volumes = volumeNames args st.volumeNumber) :
    (runLoop W args numOfIndexes st recs).1.volumes
      = volumeNames args (runLoop W args numOfIndexes st recs).1.volumeNumber := by
  induction recs generalizing st with
  | nil => simpa [runLoop] using h
  | cons recLen rest ih =>
    unfold runLoop
    have hstep := stepRecord_names W args numOfIndexes st recLen h
    cases hs : stepRecord W args numOfIndexes st recLen with
    | mk st' err =>
      cases err with
      | none => exact ih st' (by rw [hs] at hstep; exact hstep)
      | some e => simpa using (by rw [hs] at hstep; exact hstep)

/-- C1: in a run whose ingest loop completed without error and left at
least one finished record, a final volume is emitted; if exactly one
volume was emitted in total it is named by the bare base name and no
separate top-level manifest is written; otherwise the volumes are named
`base0`, `base1`, ... in emission order and a separate top-level
manifest records the number of volumes. -/
theorem lastdb_finalVolume_naming (W : Nat) (args : LastdbArguments)
    (numOfIndexes : Nat) (recs : List Nat) (st : LoopState)
    (hrun : runLoop W args numOfIndexes initialLoopState recs = (st, none))
    (hfin : 0 < st.ms.finishedSeqs) :
    (finalize args st).volumes ≠ []
    ∧ ((finalize args st).volumes.length = 1 →
        (finalize args st).volumes = [args.lastdbName]
          ∧ (finalize args st).topPrj = none)
    ∧ ((finalize args st).volumes.length ≠ 1 →
        (finalize args st).volumes
            = volumeNames args (finalize args st).volumes.length
          ∧ (finalize args st).topPrj = some (finalize args st).volumes.length) := by
  have hnames : st.volumes = volumeNames args st.volumeNumber := by
    have := runLoop_names W args numOfIndexes recs initialLoopState (by rfl)
    rw [hrun] at this
    exact this
  have hlen : st.volumes.length = st.volumeNumber := by
    rw [hnames]; simp [volumeNames]
  unfold finalize
  rw [if_pos hfin]
  by_cases hv : st.volumeNumber = 0
  · rw [if_pos hv]
    have hnil : st.volumes = [] := by
      rw [hnames, hv]; rfl
    refine ⟨by simp [hnil], ?_, ?_⟩
    · intro _; simp [hnil]
    · intro hne; exact absurd (by simp [hnil]) hne
  · rw [if_neg hv]
    have hlen' : (st.volumes ++ [args.lastdbName ++ toString st.volumeNumber]).length
        = st.volumeNumber + 1 := by
      simp [hlen]
    refine ⟨by simp, ?_, ?_⟩
    · intro h1
      rw [hlen'] at h1
      omega
    · intro _
      simp only [hlen']
      constructor
      · rw [hnames]
        simp [volumeNames, List.range_succ]
      · trivial

/-- Witness for C1: one 3-letter record, a roomy budget; the run emits a
single volume named by the bare base name and no top-level manifest. -/
theorem lastdb_finalVolume_naming_witness :
    (runLoop 4 c2Args 1 initialLoopState [3] = (⟨0, 1, ⟨1, 3⟩, []⟩, none)
      ∧ 0 < (⟨0, 1, (⟨1, 3⟩ : MultiState), []⟩ : LoopState).ms.finishedSeqs)
    ∧ ((finalize c2Args ⟨0, 1, ⟨1, 3⟩, []⟩).volumes ≠ []
        ∧ ((finalize c2Args ⟨0, 1, ⟨1, 3⟩, []⟩).volumes.length = 1 →
            (finalize c2Args ⟨0, 1, ⟨1, 3⟩, []⟩).volumes = [c2Args.lastdbName]
              ∧ (finalize c2Args ⟨0, 1, ⟨1, 3⟩, []⟩).topPrj = none)
        ∧ ((finalize c2Args ⟨0, 1, ⟨1, 3⟩, []⟩).volumes.length ≠ 1 →
            (finalize c2Args ⟨0, 1, ⟨1, 3⟩, []⟩).volumes
                = volumeNames c2Args (finalize c2Args ⟨0, 1, ⟨1, 3⟩, []⟩).volumes.length
              ∧ (finalize c2Args ⟨0, 1, ⟨1, 3⟩, []⟩).topPrj
                  = some (finalize c2Args ⟨0, 1, ⟨1, 3⟩, []⟩).volumes.length)) :=
  ⟨⟨by decide, by decide⟩,
    lastdb_finalVolume_naming 4 c2Args 1 [3] ⟨0, 1, ⟨1, 3⟩, []⟩ (by decide) (by decide)⟩

/-- Invariant of the counts-only loop: the MultiSequence is always back
in its reinitialized state when a record arrives (so every append sees
zero finished sequences), and no volume is ever emitted. -/
theorem stepRecord_countsOnly (W : Nat) (args : LastdbArguments) (numOfIndexes : Nat)
    (st : LoopState) (recLen : Nat)
    (hc : args.isCountsOnly = true) (hms : st.ms = ⟨0, 0⟩) :
    (stepRecord W args numOfIndexes st recLen).1.ms = ⟨0, 0⟩
    ∧ (stepRecord W args numOfIndexes st recLen).1.volumes = st.volumes
    ∧ (stepRecord W args numOfIndexes st recLen).1.volumeNumber = st.volumeNumber := by
  unfold stepRecord appendFromFasta multiAppend appendCap
  rw [hms]
  simp only [Nat.zero_add]
  by_cases hle : recLen ≤ indexTMax W
  · simp [hle, handleFinished, hc]
  · simp [hle, hms]

theorem runLoop_countsOnly (W : Nat) (args : LastdbArguments) (numOfIndexes : Nat)
    (recs : List Nat) (st : LoopState)
    (hc : args.isCountsOnly = true) (hms : st.ms = ⟨0, 0⟩) :
    (runLoop W args numOfIndexes st recs).1.ms = ⟨0, 0⟩
    ∧ (runLoop W args numOfIndexes st recs).1.volumes = st.volumes
    ∧ (runLoop W args numOfIndexes st recs).1.volumeNumber = st.volumeNumber := by
  induction recs generalizing st with
  | nil => simp [runLoop, hms]
  | cons recLen rest ih =>
    unfold runLoop
    have hstep := stepRecord_countsOnly W args numOfIndexes st recLen hc hms
    cases hs : stepRecord W args numOfIndexes st recLen with
    | mk st' err =>
      rw [hs] at hstep
      cases err with
      | none =>
        have := ih st' hstep.1
        exact ⟨this.1, by rw [this.2.1, hstep.2.1], by rw [this.2.2, hstep.2.2]⟩
      | some e => simpa using hstep

/-- C6: when the user requests counts-only mode no volume is ever
emitted (`makeVolume` is never reached, so no per-volume files are
written); the MultiSequence is back in its reinitialized state after
every prefix of the input (it is reset after each finished record); and
a run that does not abort writes only the top-level manifest, which
records zero volumes. -/
theorem countsOnly_emitsNothing (W : Nat) (args : LastdbArguments)
    (numOfIndexes : Nat) (recs : List Nat)
    (hc : args.isCountsOnly = true) :
    (lastdbRun W args numOfIndexes recs).1.volumes = []
    ∧ ((lastdbRun W args numOfIndexes recs).2 = none →
        (lastdbRun W args numOfIndexes recs).1.topPrj = some 0)
    ∧ (∀ pre suf, recs = pre ++ suf →
        (runLoop W args numOfIndexes initialLoopState pre).1.ms = ⟨0, 0⟩) := by
  have hloop := runLoop_countsOnly W args numOfIndexes recs initialLoopState hc rfl
  cases hs : runLoop W args numOfIndexes initialLoopState recs with
  | mk st err =>
    rw [hs] at hloop
    have h1 : st.ms = ⟨0, 0⟩ := hloop.1
    have h2 : st.volumes = [] := hloop.2.1
    have h3 : st.volumeNumber = 0 := hloop.2.2
    refine ⟨?_, ?_, ?_⟩
    · cases err with
      | none => simp [lastdbRun, hs, finalize, h1, h2]
      | some e => simp [lastdbRun, hs, h2]
    · cases err with
      | none =>
        intro _
        simp [lastdbRun, hs, finalize, h1, h3]
      | some e =>
        intro hcontra
        simp [lastdbRun, hs] at hcontra
    · intro pre suf hsplit
      exact (runLoop_countsOnly W args numOfIndexes pre initialLoopState hc rfl).1

/-- Witness for C6: two records in counts-only mode. -/
def c6Args : LastdbArguments :=
  { lastdbName := "db", userAlphabet := "", isProtein := false,
    isKeepLowercase := false, isCaseSensitive := false, isCountsOnly := true,
    tantanSetting := 0, minSeedLimit := 0, minimizerWindow := 1,
    indexStep := 1, volumeSize := 10, inputFormat := .fasta }

theorem countsOnly_emitsNothing_witness :
    c6Args.isCountsOnly = true
    ∧ ((lastdbRun 4 c6Args 1 [2, 3]).1.volumes = []
        ∧ ((lastdbRun 4 c6Args 1 [2, 3]).2 = none →
            (lastdbRun 4 c6Args 1 [2, 3]).1.topPrj = some 0)
        ∧ (∀ pre suf, [2, 3] = pre ++ suf →
            (runLoop 4 c6Args 1 initialLoopState pre).1.ms = ⟨0, 0⟩)) :=
  ⟨rfl, countsOnly_emitsNothing 4 c6Args 1 [2, 3] rfl⟩

/-- Mask one sequence in place: `masker.mask(w + seqBeg(i), w + seqEnd(i),
maskTable)` overwrites the bytes of sequence `i` (the interval
`[seqBeg i, seqEnd i)` of the shared text buffer) with the masker's
output on them, leaving the rest of the buffer untouched.  The masker is
an arbitrary in-place transformation of the sequence's own bytes, as
TantanMasker's contract promises. -/
def maskOne (masker : List Nat → List Nat) (bounds : List (Nat × Nat))
    (buf : List Nat) (i : Nat) : List Nat :=
  let b := (bounds.getD i (0, 0)).1
  let e := (bounds.getD i (0, 0)).2
  buf.take b ++ masker ((buf.drop b).take (e - b)) ++ buf.drop e

/-- Modelled from the spec: `firstSequenceInChunk` (threadUtil is not
under src/) divides the finished sequences into `numOfChunks` contiguous
chunks by sequence index; chunk `chunkNum` starts at sequence
`numSeqs * chunkNum / numOfChunks`. -/
def firstSequenceInChunk (numSeqs numOfChunks chunkNum : Nat) : Nat :=
  numSeqs * chunkNum / numOfChunks

/-- `preprocessSomeSeqs` (lastdb.cc lines 150-160): mask every sequence
of one chunk, in sequence order. -/
def preprocessSomeSeqs (masker : List Nat → List Nat) (bounds : List (Nat × Nat))
    (numSeqs numOfChunks chunkNum : Nat) (buf : List Nat) : List Nat :=
  let beg := firstSequenceInChunk numSeqs numOfChunks chunkNum
  let en := firstSequenceInChunk numSeqs numOfChunks (chunkNum + 1)
  (List.range' beg (en - beg)).foldl (maskOne masker bounds) buf

/-- `preprocessSeqs` (lastdb.cc lines 162-177): run the chunks
0, ..., numOfChunks-1.  The worker threads own disjoint byte ranges of
the shared buffer (chunks are split on sequence boundaries and each
`maskOne` touches only its own sequence's bytes), so the concurrent
execution is modelled by running the chunks in order. -/
def preprocessSeqs (masker : List Nat → List Nat) (bounds : List (Nat × Nat))
    (numSeqs numOfChunks : Nat) (buf : List Nat) : List Nat :=
  (List.range numOfChunks).foldl
    (fun b chunkNum => preprocessSomeSeqs masker bounds numSeqs numOfChunks chunkNum b)
    buf

theorem preprocessSeqs_eq_foldl (masker : List Nat → List Nat)
    (bounds : List (Nat × Nat)) (numSeqs T : Nat) (hT : 1 ≤ T) (buf : List Nat) :
    preprocessSeqs masker bounds numSeqs T buf
      = (List.range' 0 numSeqs).foldl (maskOne masker bounds) buf := by
  have key : ∀ m : Nat, ∀ b : List Nat,
      (List.range m).foldl
        (fun x chunkNum => preprocessSomeSeqs masker bounds numSeqs T chunkNum x) b
      = (List.range' 0 (firstSequenceInChunk numSeqs T m)).foldl
          (maskOne masker bounds) b := by
    intro m
    induction m with
    | zero => intro b; simp [firstSequenceInChunk]
    | succ k ih =>
      intro b
      rw [List.range_succ, List.foldl_append, ih]
      simp only [List.foldl_cons, List.foldl_nil, preprocessSomeSeqs]
      have hmono : firstSequenceInChunk numSeqs T k
          ≤ firstSequenceInChunk numSeqs T (k + 1) := by
        apply Nat.div_le_div_right
        exact Nat.mul_le_mul_left _ (Nat.le_succ k)
      rw [← List.foldl_append]
      have h := List.range'_append_1 0 (firstSequenceInChunk numSeqs T k)
        (firstSequenceInChunk numSeqs T (k + 1) - firstSequenceInChunk numSeqs T k)
      rw [Nat.zero_add] at h
      rw [h]
      have heq : firstSequenceInChunk numSeqs T (k + 1)
            - firstSequenceInChunk numSeqs T k + firstSequenceInChunk numSeqs T k
          = firstSequenceInChunk numSeqs T (k + 1) := by omega
      rw [heq]
  rw [preprocessSeqs, key T buf]
  have : firstSequenceInChunk numSeqs T T = numSeqs := by
    unfold firstSequenceInChunk
    exact Nat.mul_div_cancel _ (by omega)
  rw [this]

/-- C4: for every masker, every sequence layout and every chunk count
T ≥ 1, the masking pass split into T contiguous chunks by sequence index
produces the same final text buffer as running it with a single chunk —
so the text handed to the downstream (single-threaded, deterministic)
indexing and write-out stages does not depend on the thread count. -/
theorem preprocessSeqs_threadInvariant (masker : List Nat → List Nat)
    (bounds : List (Nat × Nat)) (numSeqs T : Nat) (buf : List Nat)
    (hT : 1 ≤ T) :
    preprocessSeqs masker bounds numSeqs T buf
      = preprocessSeqs masker bounds numSeqs 1 buf := by
  rw [preprocessSeqs_eq_foldl masker bounds numSeqs T hT buf,
    preprocessSeqs_eq_foldl masker bounds numSeqs 1 (by omega) buf]

/-- Witness for C4: a two-sequence buffer masked in two chunks equals the
single-chunk run. -/
theorem preprocessSeqs_threadInvariant_witness :
    1 ≤ 2
    ∧ preprocessSeqs (fun l => l.map (fun c => c + 32)) [(0, 2), (3, 5)] 2 2 [7, 7, 0, 9, 9, 0]
        = preprocessSeqs (fun l => l.map (fun c => c + 32)) [(0, 2), (3, 5)] 2 1 [7, 7, 0, 9, 9, 0] :=
  ⟨by decide,
    preprocessSeqs_threadInvariant (fun l => l.map (fun c => c + 32))
      [(0, 2), (3, 5)] 2 2 [7, 7, 0, 9, 9, 0] (by decide)⟩

/-- The value printed after `key=` on one manifest line: a string, a
number (booleans print as 0/1, the format enum as its integer), or the
space-separated list of letter counts. -/
inductive PrjValue where
  | str (s : String)
  | num (n : Nat)
  | nums (l : List Nat)
deriving Repr, DecidableEq

/-- One line of a `.prj` manifest: a `key=value` line, or a raw line
copied verbatim (the `#lastal ...` lines). -/
inductive PrjLine where
  | kv (key : String) (val : PrjValue)
  | raw (line : String)
deriving Repr, DecidableEq

/-- The version string from version.hh (not under src/; the repository is
release 744).  The claims depend only on the key, not this value. -/
def lastVersion : String := "744"

/-- `writeLastalOptions` (lastdb.cc lines 91-98): copy into the manifest
every line of the seed text that starts with `#lastal`. -/
def writeLastalOptions (seedText : String) : List PrjLine :=
  ((seedText.splitOn "\n").filter (fun line => line.startsWith "#lastal")).map .raw

/-- `writePrjFile` (lastdb.cc lines 100-148) as the list of manifest
lines it writes, in order.  `volumes` is the C `unsigned` argument
(callers pass `unsigned(-1) = 2^32 - 1` for a per-volume manifest), so
the `volumes + 1 > 0` test is taken modulo `2^32`. -/
def writePrjFile (args : LastdbArguments) (alph : String) (sequenceCount : Nat)
    (letterCounts : List Nat) (volumes : Nat) (numOfIndexes : Nat)
    (seedText : String) : List PrjLine :=
  [.kv "version" (.str lastVersion),
   .kv "alphabet" (.str alph),
   .kv "numofsequences" (.num sequenceCount),
   .kv "numofletters" (.num (letterCounts.foldl (· + ·) 0)),
   .kv "letterfreqs" (.nums letterCounts)]
  ++ if args.isCountsOnly then [] else
    [.kv "maxunsortedinterval" (.num args.minSeedLimit),
     .kv "keeplowercase" (.num (if args.isKeepLowercase then 1 else 0))]
    ++ (if args.tantanSetting ≠ 0 then [.kv "tantansetting" (.num args.tantanSetting)] else [])
    ++ [.kv "masklowercase" (.num (if args.isCaseSensitive then 1 else 0))]
    ++ (if args.inputFormat ≠ .fasta then [.kv "sequenceformat" (.num args.inputFormat.code)] else [])
    ++ (if 1 < args.minimizerWindow then [.kv "minimizerwindow" (.num args.minimizerWindow)] else [])
    ++ (if 0 < (volumes + 1) % uintCard then [.kv "volumes" (.num volumes)]
        else [.kv "numofindexes" (.num numOfIndexes)])
    ++ writeLastalOptions seedText

/-- The keys of a manifest's `key=value` lines, in order. -/
def prjKeys (m : List PrjLine) : List String :=
  m.filterMap fun line => match line with | .kv k _ => some k | .raw _ => none

theorem prjKeys_raws (ls : List String) : prjKeys (ls.map .raw) = [] := by
  induction ls with
  | nil => rfl
  | cons l rest ih => simp [prjKeys, List.filterMap_cons] at ih ⊢

/-- The keys of `writePrjFile`'s output, fully characterised. -/
theorem prjKeys_writePrjFile (args : LastdbArguments) (alph : String)
    (sequenceCount : Nat) (letterCounts : List Nat) (volumes : Nat)
    (numOfIndexes : Nat) (seedText : String) :
    prjKeys (writePrjFile args alph sequenceCount letterCounts volumes numOfIndexes seedText)
      = ["version", "alphabet", "numofsequences", "numofletters", "letterfreqs"]
        ++ if args.isCountsOnly then [] else
          ["maxunsortedinterval", "keeplowercase"]
          ++ (if args.tantanSetting ≠ 0 then ["tantansetting"] else [])
          ++ ["masklowercase"]
          ++ (if args.inputFormat ≠ .fasta then ["sequenceformat"] else [])
          ++ (if 1 < args.minimizerWindow then ["minimizerwindow"] else [])
          ++ (if 0 < (volumes + 1) % uintCard then ["volumes"] else ["numofindexes"]) := by
  have hraw := prjKeys_raws
    ((seedText.splitOn "\n").filter (fun line => line.startsWith "#lastal"))
  unfold writePrjFile writeLastalOptions
  unfold prjKeys at hraw ⊢
  by_cases h1 : args.isCountsOnly
    <;> by_cases h2 : args.tantanSetting ≠ 0
    <;> by_cases h3 : args.inputFormat ≠ SequenceFormat.fasta
    <;> by_cases h4 : 1 < args.minimizerWindow
    <;> by_cases h5 : 0 < (volumes + 1) % uintCard
    <;> simp [h1, h2, h3, h4, h5, List.filterMap_append, hraw]

/-- C5: every manifest contains `version`, `alphabet`, `numofsequences`,
`numofletters` and `letterfreqs`; a counts-only manifest contains
nothing else; otherwise it additionally contains `maxunsortedinterval`,
`keeplowercase` and `masklowercase`, contains `tantansetting` exactly
when the tantan setting is nonzero, `sequenceformat` exactly when the
input format is not fasta, `minimizerwindow` exactly when the minimizer
window exceeds 1, and exactly one of `volumes` (the top-level manifest,
whose `volumes` argument is the volume count) or `numofindexes` (the
per-volume manifest, whose `volumes` argument is `unsigned(-1)`, failing
the `volumes + 1 > 0` test). -/
theorem writePrjFile_keys (args : LastdbArguments) (alph : String)
    (sequenceCount : Nat) (letterCounts : List Nat) (volumes : Nat)
    (numOfIndexes : Nat) (seedText : String) :
    let ks := prjKeys
      (writePrjFile args alph sequenceCount letterCounts volumes numOfIndexes seedText)
    ("version" ∈ ks ∧ "alphabet" ∈ ks ∧ "numofsequences" ∈ ks
        ∧ "numofletters" ∈ ks ∧ "letterfreqs" ∈ ks)
    ∧ (args.isCountsOnly = true →
        ks = ["version", "alphabet", "numofsequences", "numofletters", "letterfreqs"])
    ∧ (args.isCountsOnly = false →
        "maxunsortedinterval" ∈ ks ∧ "keeplowercase" ∈ ks ∧ "masklowercase" ∈ ks
        ∧ (("tantansetting" ∈ ks) ↔ args.tantanSetting ≠ 0)
        ∧ (("sequenceformat" ∈ ks) ↔ args.inputFormat ≠ .fasta)
        ∧ (("minimizerwindow" ∈ ks) ↔ 1 < args.minimizerWindow)
        ∧ (("volumes" ∈ ks) ↔ ¬ ("numofindexes" ∈ ks))
        ∧ (("volumes" ∈ ks) ↔ 0 < (volumes + 1) % uintCard)) := by
  rw [prjKeys_writePrjFile]
  by_cases h1 : args.isCountsOnly
    <;> by_cases h2 : args.tantanSetting ≠ 0
    <;> by_cases h3 : args.inputFormat ≠ SequenceFormat.fasta
    <;> by_cases h4 : 1 < args.minimizerWindow
    <;> by_cases h5 : 0 < (volumes + 1) % uintCard
    <;> simp [h1, h2, h3, h4, h5]

/-- Witness for C5 at concrete inputs (not counts-only, tantan on,
fastq-sanger input, minimizer window 2, a top-level manifest of 3
volumes). -/
def c5Args : LastdbArguments :=
  { lastdbName := "db", userAlphabet := "", isProtein := false,
    isKeepLowercase := true, isCaseSensitive := false, isCountsOnly := false,
    tantanSetting := 1, minSeedLimit := 0, minimizerWindow := 2,
    indexStep := 1, volumeSize := 10, inputFormat := .fastqSanger }

theorem writePrjFile_keys_witness :
    (let ks := prjKeys (writePrjFile c5Args "ACGT" 1 [1, 0, 0, 0] 3 1 "");
      ("version" ∈ ks ∧ "alphabet" ∈ ks ∧ "numofsequences" ∈ ks
          ∧ "numofletters" ∈ ks ∧ "letterfreqs" ∈ ks)
      ∧ (c5Args.isCountsOnly = true →
          ks = ["version", "alphabet", "numofsequences", "numofletters", "letterfreqs"])
      ∧ (c5Args.isCountsOnly = false →
          "maxunsortedinterval" ∈ ks ∧ "keeplowercase" ∈ ks ∧ "masklowercase" ∈ ks
          ∧ (("tantansetting" ∈ ks) ↔ c5Args.tantanSetting ≠ 0)
          ∧ (("sequenceformat" ∈ ks) ↔ c5Args.inputFormat ≠ .fasta)
          ∧ (("minimizerwindow" ∈ ks) ↔ 1 < c5Args.minimizerWindow)
          ∧ (("volumes" ∈ ks) ↔ ¬ ("numofindexes" ∈ ks))
          ∧ (("volumes" ∈ ks) ↔ 0 < (3 + 1) % uintCard))) :=
  writePrjFile_keys c5Args "ACGT" 1 [1, 0, 0, 0] 3 1 ""

/-- The first `key=value` line of a manifest with the given key. -/
def prjLookup (m : List PrjLine) (key : String) : Option PrjValue :=
  match m with
  | [] => none
  | .kv k v :: rest => if k = key then some v else prjLookup rest key
  | .raw _ :: rest => prjLookup rest key

/-- C10: in every manifest, the number under `numofletters` is the sum of
the letter counts listed under `letterfreqs` (the source computes the
former with `std::accumulate` over the latter). -/
theorem writePrjFile_letterTotal (args : LastdbArguments) (alph : String)
    (sequenceCount : Nat) (letterCounts : List Nat) (volumes : Nat)
    (numOfIndexes : Nat) (seedText : String) (n : Nat) (l : List Nat)
    (hn : prjLookup
        (writePrjFile args alph sequenceCount letterCounts volumes numOfIndexes seedText)
        "numofletters" = some (.num n))
    (hl : prjLookup
        (writePrjFile args alph sequenceCount letterCounts volumes numOfIndexes seedText)
        "letterfreqs" = some (.nums l)) :
    n = l.sum := by
  have hn' : prjLookup
      (writePrjFile args alph sequenceCount letterCounts volumes numOfIndexes seedText)
      "numofletters" = some (.num (letterCounts.foldl (· + ·) 0)) := rfl
  have hl' : prjLookup
      (writePrjFile args alph sequenceCount letterCounts volumes numOfIndexes seedText)
      "letterfreqs" = some (.nums letterCounts) := rfl
  rw [hn'] at hn
  rw [hl'] at hl
  have hne : n = letterCounts.foldl (· + ·) 0 := by
    cases hn; rfl
  have hle : l = letterCounts := by
    cases hl; rfl
  rw [hne, hle, List.sum_eq_foldl]

/-- Witness for C10 at concrete inputs. -/
theorem writePrjFile_letterTotal_witness :
    (prjLookup (writePrjFile c2Args "ACGT" 2 [1, 2, 3] 0 1 "") "numofletters"
        = some (.num 6)
      ∧ prjLookup (writePrjFile c2Args "ACGT" 2 [1, 2, 3] 0 1 "") "letterfreqs"
        = some (.nums [1, 2, 3]))
    ∧ 6 = [1, 2, 3].sum :=
  ⟨⟨rfl, rfl⟩,
    writePrjFile_letterTotal c2Args "ACGT" 2 [1, 2, 3] 0 1 "" 6 [1, 2, 3] rfl rfl⟩

/-- A letter code is DNA-like when, after uppercasing, it is a canonical
letter (code below the alphabet size) or the code of 'N'.  `upper` is the
Alphabet's `numbersToUppercase` table, `size` its canonical size, `encN`
its `encode['N']`. -/
def dnaLike (upper : Nat → Nat) (size encN : Nat) (c : Nat) : Bool :=
  upper c < size || upper c = encN

/-- The loop of `isDubiousDna` (lastdb.cc lines 41-45): scan the letters
with `100 - i` iterations left and `dnaCount` so far; hitting the
sequence-end code `size` (or, in the model, the end of the list — the
real buffer always ends with a delimiter that uppercases to `size`)
returns not-dubious early. -/
def dubiousLoop (upper : Nat → Nat) (size encN : Nat) :
    Nat → Nat → List Nat → Bool
  | 0, dnaCount, _ => decide (dnaCount < 90)
  | _ + 1, _, [] => false
  | fuel + 1, dnaCount, c :: rest =>
    if upper c = size then false
    else dubiousLoop upper size encN fuel
      (if dnaLike upper size encN c then dnaCount + 1 else dnaCount) rest

/-- `isDubiousDna` (lastdb.cc lines 36-49): does the first sequence look
like it isn't really DNA?  Examines the first 100 letters. -/
def isDubiousDna (upper : Nat → Nat) (size encN : Nat) (seq : List Nat) : Bool :=
  dubiousLoop upper size encN 100 0 seq

/-- The driver's warning guard (lastdb.cc lines 317-319): the
funny-lookin-DNA warning is printed after an append exactly when the run
chose no explicit alphabet and not protein, no sequence has been counted
yet, and the first sequence looks dubious. -/
def funnyWarning (args : LastdbArguments) (sequenceCount : Nat)
    (upper : Nat → Nat) (size encN : Nat) (seq : List Nat) : Bool :=
  !args.isProtein && args.userAlphabet = "" && sequenceCount = 0
    && isDubiousDna upper size encN seq

theorem dubiousLoop_count (upper : Nat → Nat) (size encN : Nat) :
    ∀ (fuel dnaCount : Nat) (seq : List Nat),
      fuel ≤ seq.length →
      (∀ c ∈ seq.take fuel, upper c ≠ size) →
      dubiousLoop upper size encN fuel dnaCount seq
        = decide (dnaCount + (seq.take fuel).countP (dnaLike upper size encN) < 90) := by
  intro fuel
  induction fuel with
  | zero => intro dnaCount seq _ _; simp [dubiousLoop]
  | succ k ih =>
    intro dnaCount seq hlen hnd
    cases seq with
    | nil => simp at hlen
    | cons c rest =>
      have hc : upper c ≠ size := hnd c (by simp)
      simp only [dubiousLoop, hc, if_false]
      rw [ih _ rest (by simpa using hlen)
        (fun x hx => hnd x (by rw [List.take_succ_cons]; exact List.mem_cons_of_mem c hx))]
      simp only [List.take_succ_cons, List.countP_cons]
      rw [decide_eq_decide]
      cases hd : dnaLike upper size encN c <;> (simp [hd]; try omega)

/-- C7: in a run with no user-supplied alphabet (no explicit letter
string, not protein), after the first append — no sequence counted yet —
the driver emits the funny-lookin-DNA warning exactly when fewer than 90
of the first 100 letters of the first sequence are DNA-like (a canonical
letter or 'N'), provided the sequence reaches 100 letters before its end
delimiter. -/
theorem funnyWarning_iff (args : LastdbArguments) (upper : Nat → Nat)
    (size encN : Nat) (seq : List Nat)
    (hprot : args.isProtein = false) (halph : args.userAlphabet = "")
    (hlen : 100 ≤ seq.length)
    (hnd : ∀ c ∈ seq.take 100, upper c ≠ size) :
    funnyWarning args 0 upper size encN seq = true
      ↔ (seq.take 100).countP (dnaLike upper size encN) < 90 := by
  unfold funnyWarning isDubiousDna
  rw [dubiousLoop_count upper size encN 100 0 seq hlen hnd]
  simp [hprot, halph]

/-- Witness for C7: a 100-letter sequence of a non-canonical, non-'N'
code (count 0 < 90) triggers the warning. -/
theorem funnyWarning_iff_witness :
    (c2Args.isProtein = false ∧ c2Args.userAlphabet = ""
      ∧ 100 ≤ (List.replicate 100 50).length
      ∧ (∀ c ∈ (List.replicate 100 50).take 100, (fun x => x) c ≠ 4))
    ∧ (funnyWarning c2Args 0 (fun x => x) 4 6 (List.replicate 100 50) = true
        ↔ ((List.replicate 100 50).take 100).countP (dnaLike (fun x => x) 4 6) < 90) :=
  ⟨⟨rfl, rfl, by decide, by decide⟩,
    funnyWarning_iff c2Args (fun x => x) 4 6 (List.replicate 100 50)
      rfl rfl (by decide) (by decide)⟩

/-- How a call of `lastdb` can end, as observed by `main`
(lastdb.cc lines 363-378): normal return, an allocation failure
(`std::bad_alloc`), any other exception carrying a description, or a
thrown `int` (used by argument parsing for help/version exits). -/
inductive RunOutcome where
  | success
  | badAlloc
  | failure (msg : String)
  | exitCode (i : Int)
deriving Repr, DecidableEq

/-- `main` (lastdb.cc lines 363-378): exit status and the single
diagnostic line written to the error stream, if any.  `prog` is
`argv[0]`.  EXIT_SUCCESS = 0 and EXIT_FAILURE = 1. -/
def mainResult (prog : String) (o : RunOutcome) : Int × Option String :=
  match o with
  | .success => (0, none)
  | .badAlloc => (1, some (prog ++ ": out of memory\n"))
  | .failure msg => (1, some (prog ++ ": " ++ msg ++ "\n"))
  | .exitCode i => (i, none)

/-- C8: apart from the thrown-int help/version path, the program exits 0
exactly when the run succeeds; every error aborts with a non-zero exit
code and a single-line `{programName}: {description}` diagnostic; and an
out-of-memory failure prints the terse "out of memory" message instead
of the allocator's. -/
theorem mainResult_errorPolicy (prog : String) (o : RunOutcome)
    (hint : ∀ i, o ≠ .exitCode i) :
    ((mainResult prog o).1 = 0 ↔ o = .success)
    ∧ (o = .badAlloc →
        (mainResult prog o).1 ≠ 0
          ∧ (mainResult prog o).2 = some (prog ++ ": out of memory\n"))
    ∧ (∀ msg, o = .failure msg →
        (mainResult prog o).1 ≠ 0
          ∧ (mainResult prog o).2 = some (prog ++ ": " ++ msg ++ "\n")) := by
  cases o with
  | success => refine ⟨by simp [mainResult], by simp, by simp⟩
  | badAlloc => refine ⟨by simp [mainResult], by simp [mainResult], by simp⟩
  | failure msg =>
    refine ⟨by simp [mainResult], by simp, ?_⟩
    intro m hm
    cases hm
    simp [mainResult]
  | exitCode i => exact absurd rfl (hint i)

/-- Witness for C8 on a failure outcome. -/
theorem mainResult_errorPolicy_witness :
    (∀ i, RunOutcome.failure "can't write file: db.prj" ≠ .exitCode i)
    ∧ (((mainResult "lastdb" (.failure "can't write file: db.prj")).1 = 0
          ↔ RunOutcome.failure "can't write file: db.prj" = .success)
        ∧ (RunOutcome.failure "can't write file: db.prj" = .badAlloc →
            (mainResult "lastdb" (.failure "can't write file: db.prj")).1 ≠ 0
              ∧ (mainResult "lastdb" (.failure "can't write file: db.prj")).2
                  = some ("lastdb" ++ ": out of memory\n"))
        ∧ (∀ msg, RunOutcome.failure "can't write file: db.prj" = .failure msg →
            (mainResult "lastdb" (.failure "can't write file: db.prj")).1 ≠ 0
              ∧ (mainResult "lastdb" (.failure "can't write file: db.prj")).2
                  = some ("lastdb" ++ ": " ++ msg ++ "\n"))) :=
  ⟨fun _ h => RunOutcome.noConfusion h,
    mainResult_errorPolicy "lastdb" (.failure "can't write file: db.prj")
      (fun _ h => RunOutcome.noConfusion h)⟩
